import Mathlib

/-!
Shallow embedding of the `copter_defs` crate (`src/lib.rs`): a binary command
codec for a remote-controlled vehicle's serial link.

Modelling conventions:
* `u8` bytes are `Nat`; the theorems that quantify over a full byte range use
  `Fin 256`.
* An `f32` component is represented by its IEEE-754 bit pattern (a `Nat`
  below `2^32`), because the codec only ever moves bit patterns:
  encoding uses `f32::to_bits` and decoding uses `f32::from_bits`, which are
  mutually inverse bit-level casts in Rust.
* Rust's `Result<T, ()>` becomes `Except Unit T`.
* The external `rc_framing` collaborator is opaque in the source, so the
  frame-level functions are parameterized by the framing transform.
-/

deriving instance DecidableEq for Except

/-- The `MotorPosition` enum of the source (9 variants). -/
inductive MotorPosition where
  | frontLeft
  | frontRight
  | backLeft
  | backRight
  | left
  | right
  | front
  | back
  | all
deriving DecidableEq, Repr, Fintype

/-- `impl Into<u8> for MotorPosition`: the fixed one-byte wire tag. -/
def MotorPosition.intoU8 : MotorPosition → Nat
  | .frontLeft => 0x01
  | .frontRight => 0x02
  | .backLeft => 0x03
  | .backRight => 0x04
  | .left => 0xF1
  | .right => 0xF2
  | .front => 0xF3
  | .back => 0xF4
  | .all => 0xFF

/-- `impl TryFrom<u8> for MotorPosition`; the error type in the source is `()`. -/
def MotorPosition.try_from (value : Nat) : Except Unit MotorPosition :=
  match value with
  | 0x01 => .ok .frontLeft
  | 0x02 => .ok .frontRight
  | 0x03 => .ok .backLeft
  | 0x04 => .ok .backRight
  | 0xF1 => .ok .left
  | 0xF2 => .ok .right
  | 0xF3 => .ok .front
  | 0xF4 => .ok .back
  | 0xFF => .ok .all
  | _ => .error ()

/-- `nalgebra::Vector3<f32>`: each `f32` component is modelled by its IEEE-754
bit pattern (`f32::to_bits`), a natural number below `2^32`. -/
structure Vector3Bits where
  x : Nat
  y : Nat
  z : Nat
deriving DecidableEq, Repr

/-- The `Command` enum of the source (revision 2: `StartMotor`/`StopMotor`
carry no payload; `SendMotionState` carries the angular-velocity vector and
the armed flag). -/
inductive Command where
  | startMotor
  | stopMotor
  | getMotionState
  | sendMotionState (angle_vel : Vector3Bits) (armed : Bool)
  | toggleLed
deriving DecidableEq, Repr

/-- `impl Into<u8> for Command`: the one-byte command tag. -/
def Command.intoU8 : Command → Nat
  | .toggleLed => 1
  | .startMotor => 10
  | .stopMotor => 11
  | .getMotionState => 20
  | .sendMotionState _ _ => 21

/-- `impl TryFrom<u8> for Command`: tag to default-payload shape; the error
type in the source is `()`. -/
def Command.try_from (value : Nat) : Except Unit Command :=
  match value with
  | 1 => .ok .toggleLed
  | 10 => .ok .startMotor
  | 11 => .ok .stopMotor
  | 20 => .ok .getMotionState
  | 21 => .ok (.sendMotionState ⟨0, 0, 0⟩ false)
  | _ => .error ()

/-- `u32::to_be_bytes` applied to an `f32` bit pattern: four big-endian bytes. -/
def u32ToBeBytes (x : Nat) : List Nat :=
  [x / 16777216 % 256, x / 65536 % 256, x / 256 % 256, x % 256]

/-- `u32::from_be_bytes`: recombine four big-endian bytes. -/
def u32FromBeBytes (b0 b1 b2 b3 : Nat) : Nat :=
  b0 * 16777216 + b1 * 65536 + b2 * 256 + b3

/-- The payload bytes pushed after the tag by `Command::to_vec`. -/
def Command.payloadBytes : Command → List Nat
  | .sendMotionState v armed =>
      u32ToBeBytes v.x ++ u32ToBeBytes v.y ++ u32ToBeBytes v.z ++
        [if armed then 1 else 0]
  | _ => []

/-- `Command::to_vec` (host variant, growable `Vec<u8>`): tag byte followed by
the payload. -/
def Command.to_vec (cmd : Command) : List Nat :=
  cmd.intoU8 :: cmd.payloadBytes

/-- `heapless::Vec::push` on a fixed-capacity buffer: fails when full. -/
def heaplessPush (cap : Nat) (out : List Nat) (b : Nat) : Except Unit (List Nat) :=
  if out.length < cap then .ok (out ++ [b]) else .error ()

/-- Push a list of bytes one by one, failing the moment the buffer is full. -/
def heaplessPushAll (cap : Nat) (out : List Nat) : List Nat → Except Unit (List Nat)
  | [] => .ok out
  | b :: rest => (heaplessPush cap out b).bind fun o => heaplessPushAll cap o rest

/-- `Command::to_vec` (no_std variant): clear the caller's buffer, push the tag,
then push the payload bytes, each push fallible on a full buffer.  The source
fixes `cap = 32` (`heapless::consts::U32`); it is a parameter here so that the
unreachability of the full-buffer branch at 32 can be stated. -/
def Command.to_vec_bounded (cap : Nat) (cmd : Command) : Except Unit (List Nat) :=
  (heaplessPush cap [] cmd.intoU8).bind fun out =>
    match cmd with
    | .sendMotionState v armed =>
        (heaplessPushAll cap out
            (u32ToBeBytes v.x ++ u32ToBeBytes v.y ++ u32ToBeBytes v.z)).bind fun out2 =>
          heaplessPush cap out2 (if armed then 1 else 0)
    | _ => .ok out

/-- Pull four bytes from the input iterator and recombine them big-endian;
fails the moment a byte is unavailable (one vector component of
`Command::from_byte_array`). -/
def readU32 : List Nat → Except Unit (Nat × List Nat)
  | b0 :: b1 :: b2 :: b3 :: rest => .ok (u32FromBeBytes b0 b1 b2 b3, rest)
  | _ => .error ()

/-- The `SendMotionState` arm of `Command::from_byte_array`: three big-endian
`u32` bit patterns, then the armed byte (`0` ↦ false, `1` ↦ true, anything
else an error). -/
def decodeMotionPayload (rest : List Nat) : Except Unit Command :=
  match readU32 rest with
  | .error _ => .error ()
  | .ok (xbits, r1) =>
    match readU32 r1 with
    | .error _ => .error ()
    | .ok (ybits, r2) =>
      match readU32 r2 with
      | .error _ => .error ()
      | .ok (zbits, r3) =>
        match r3 with
        | [] => .error ()
        | a :: _ =>
          if a = 0 then .ok (.sendMotionState ⟨xbits, ybits, zbits⟩ false)
          else if a = 1 then .ok (.sendMotionState ⟨xbits, ybits, zbits⟩ true)
          else .error ()

/-- `Command::from_byte_array`: read the tag byte (empty input is an error),
dispatch on the shape given by `Command.try_from`, then parse the payload.
No-payload shapes ignore any trailing bytes. -/
def Command.from_byte_array (data : List Nat) : Except Unit Command :=
  match data with
  | [] => .error ()
  | tag :: rest =>
    match Command.try_from tag with
    | .error _ => .error ()
    | .ok .toggleLed => .ok .toggleLed
    | .ok .getMotionState => .ok .getMotionState
    | .ok .startMotor => .ok .startMotor
    | .ok .stopMotor => .ok .stopMotor
    | .ok (.sendMotionState _ _) => decodeMotionPayload rest

/-- `Command::to_slip` (host variant): serialize, then hand the raw bytes to
the external framing encoder `enc` (opaque collaborator). -/
def Command.to_slip (enc : List Nat → List Nat) (cmd : Command) : List Nat :=
  enc cmd.to_vec

/-- `Command::from_slip`: run the external framing decoder `dec` (opaque
collaborator, fallible with error `()`), then parse the raw bytes. -/
def Command.from_slip (dec : List Nat → Except Unit (List Nat))
    (input : List Nat) : Except Unit Command :=
  (dec input).bind Command.from_byte_array

/-- `Command::to_slip` (no_std variant): serialize into the internal 32-byte
buffer, then run the external bounded framing encoder `enc`, returning the
length of the framed output. -/
def Command.to_slip_bounded (enc : List Nat → Except Unit (List Nat))
    (cmd : Command) : Except Unit Nat :=
  (Command.to_vec_bounded 32 cmd).bind fun bytes =>
    (enc bytes).bind fun output => .ok output.length

/-- Well-formedness of a `Command` value as it exists in Rust: every `f32`
bit pattern fits in 32 bits. -/
def Command.wf : Command → Prop
  | .sendMotionState v _ => v.x < 4294967296 ∧ v.y < 4294967296 ∧ v.z < 4294967296
  | _ => True

instance : DecidablePred Command.wf := fun cmd =>
  match cmd with
  | .sendMotionState v _ =>
      inferInstanceAs (Decidable (v.x < 4294967296 ∧ v.y < 4294967296 ∧ v.z < 4294967296))
  | .toggleLed => inferInstanceAs (Decidable True)
  | .startMotor => inferInstanceAs (Decidable True)
  | .stopMotor => inferInstanceAs (Decidable True)
  | .getMotionState => inferInstanceAs (Decidable True)

/-! ### Helper lemmas -/

theorem u32_be_roundtrip (x : Nat) (h : x < 4294967296) :
    u32FromBeBytes (x / 16777216 % 256) (x / 65536 % 256) (x / 256 % 256) (x % 256) = x := by
  unfold u32FromBeBytes
  omega

theorem readU32_error_of_short (l : List Nat) (h : l.length < 4) :
    readU32 l = .error () := by
  rcases l with _ | ⟨b0, _ | ⟨b1, _ | ⟨b2, _ | ⟨b3, rest⟩⟩⟩⟩
  · rfl
  · rfl
  · rfl
  · rfl
  · simp at h
    omega

theorem readU32_ok_of_long (l : List Nat) (h : 4 ≤ l.length) :
    ∃ x r, readU32 l = .ok (x, r) ∧ r.length + 4 = l.length := by
  rcases l with _ | ⟨b0, _ | ⟨b1, _ | ⟨b2, _ | ⟨b3, rest⟩⟩⟩⟩
  · simp at h
  · simp at h
  · simp at h
  · simp at h
  · exact ⟨u32FromBeBytes b0 b1 b2 b3, rest, rfl, by simp⟩

theorem decodeMotionPayload_short (rest : List Nat) (h : rest.length < 13) :
    decodeMotionPayload rest = .error () := by
  by_cases h4 : rest.length < 4
  · simp [decodeMotionPayload, readU32_error_of_short rest h4]
  · push_neg at h4
    obtain ⟨x, r1, hx, hl1⟩ := readU32_ok_of_long rest h4
    by_cases h8 : r1.length < 4
    · simp [decodeMotionPayload, hx, readU32_error_of_short r1 h8]
    · push_neg at h8
      obtain ⟨y, r2, hy, hl2⟩ := readU32_ok_of_long r1 h8
      by_cases h12 : r2.length < 4
      · simp [decodeMotionPayload, hx, hy, readU32_error_of_short r2 h12]
      · push_neg at h12
        obtain ⟨z, r3, hz, hl3⟩ := readU32_ok_of_long r2 h12
        have hr3 : r3 = [] := List.length_eq_zero.mp (by omega)
        simp [decodeMotionPayload, hx, hy, hz, hr3]

theorem roundtrip_aux (cmd : Command) (h : cmd.wf) :
    Command.from_byte_array cmd.to_vec = .ok cmd := by
  cases cmd with
  | toggleLed => rfl
  | startMotor => rfl
  | stopMotor => rfl
  | getMotionState => rfl
  | sendMotionState v armed =>
    obtain ⟨x, y, z⟩ := v
    obtain ⟨hx, hy, hz⟩ := h
    cases armed <;>
      simp [Command.to_vec, Command.payloadBytes, Command.intoU8,
        Command.from_byte_array, Command.try_from, u32ToBeBytes,
        decodeMotionPayload, readU32,
        u32_be_roundtrip x hx, u32_be_roundtrip y hy, u32_be_roundtrip z hz]

/-! ### Claim theorems -/

/-- Claim C1: for every constructible `Command` value `cmd` (any `f32` bit
patterns, NaN/Inf included, any armed flag), decoding the encoder's output
returns exactly `cmd`, floats compared bit-exactly:
`Command.from_byte_array cmd.to_vec = .ok cmd`. -/
theorem command_roundtrip (cmd : Command) (h : cmd.wf) :
    Command.from_byte_array cmd.to_vec = .ok cmd :=
  roundtrip_aux cmd h

/-- Witness for C1 at a concrete command: the bit patterns of
`[1.0, NaN (0x7FC00000), -2.5]` with `armed = true`. -/
theorem command_roundtrip_witness :
    (Command.sendMotionState ⟨0x3F800000, 0x7FC00000, 0xC0200000⟩ true).wf ∧
    Command.from_byte_array
        (Command.to_vec (.sendMotionState ⟨0x3F800000, 0x7FC00000, 0xC0200000⟩ true)) =
      .ok (.sendMotionState ⟨0x3F800000, 0x7FC00000, 0xC0200000⟩ true) :=
  ⟨by decide, command_roundtrip _ (by decide)⟩

/-- Counterexample to C2 as stated: a 13-byte input whose tag is
`SendMotionState` (21) does NOT succeed — it fails, because the shape needs
1 tag + 12 vector bytes + 1 armed byte = 14 bytes. -/
theorem thirteen_byte_input_fails :
    Command.from_byte_array [21, 0, 0, 0, 0, 0, 0, 0, 0, 0, 0, 0, 0] = .error () := rfl

/-- Claim C2 (amended): every input shorter than its tag's shape requires
fails (the error type is `()`, so "Truncated" is not distinguishable);
for `SendMotionState` a 13-byte input fails and a 14-byte input (with a valid
armed byte) exactly succeeds. -/
theorem truncation_boundary :
    Command.from_byte_array [] = .error () ∧
    (∀ rest : List Nat, rest.length < 13 →
      Command.from_byte_array (21 :: rest) = .error ()) ∧
    (∀ b1 b2 b3 b4 b5 b6 b7 b8 b9 b10 b11 b12 : Nat,
      Command.from_byte_array [21, b1, b2, b3, b4, b5, b6, b7, b8, b9, b10, b11, b12, 0] =
        .ok (.sendMotionState
          ⟨u32FromBeBytes b1 b2 b3 b4, u32FromBeBytes b5 b6 b7 b8,
            u32FromBeBytes b9 b10 b11 b12⟩ false)) := by
  refine ⟨rfl, ?_, ?_⟩
  · intro rest h
    show decodeMotionPayload rest = .error ()
    exact decodeMotionPayload_short rest h
  · intros
    rfl

/-- Witness for C2's amended theorem: a bare tag with no payload bytes fails. -/
theorem truncation_boundary_witness :
    Command.from_byte_array [21] = .error () :=
  truncation_boundary.2.1 [] (by decide)

set_option maxRecDepth 8192 in
/-- Claim C3: `Command.try_from` succeeds exactly on the bytes
{1, 10, 11, 20, 21}, returning the corresponding variant with a default
payload (for 21, a zero vector and `armed = false`); every other byte in
`0..=255` fails with the unit error. -/
theorem command_tag_exhaustive :
    Command.try_from 1 = .ok .toggleLed ∧
    Command.try_from 10 = .ok .startMotor ∧
    Command.try_from 11 = .ok .stopMotor ∧
    Command.try_from 20 = .ok .getMotionState ∧
    Command.try_from 21 = .ok (.sendMotionState ⟨0, 0, 0⟩ false) ∧
    ∀ b : Fin 256, b.val ∉ ([1, 10, 11, 20, 21] : List Nat) →
      Command.try_from b.val = .error () := by
  refine ⟨rfl, rfl, rfl, rfl, rfl, ?_⟩
  decide

/-- Witness for C3 at the concrete invalid byte 2. -/
theorem command_tag_exhaustive_witness :
    Command.try_from 2 = .error () :=
  command_tag_exhaustive.2.2.2.2.2 ⟨2, by decide⟩ (by decide)

/-- Claim C4: encoding `ToggleLed` yields `[0x01]`, and encoding
`SendMotionState([1.0, 0.0, -2.5], true)` (bit patterns `0x3F800000`,
`0x00000000`, `0xC0200000`) yields the 14 raw bytes
`[0x15, 0x3F,0x80,0x00,0x00, 0x00,0x00,0x00,0x00, 0xC0,0x20,0x00,0x00, 0x01]`. -/
theorem encode_examples :
    Command.to_vec .toggleLed = [0x01] ∧
    Command.to_vec (.sendMotionState ⟨0x3F800000, 0x00000000, 0xC0200000⟩ true) =
      [0x15, 0x3F, 0x80, 0x00, 0x00, 0x00, 0x00, 0x00, 0x00, 0xC0, 0x20, 0x00, 0x00, 0x01] := by
  exact ⟨rfl, by decide⟩

/-- Claim C5: when decoding `SendMotionState`, an armed byte of 0 yields
`armed = false`, 1 yields `armed = true`, and any other value fails. -/
theorem armed_byte_validation
    (b1 b2 b3 b4 b5 b6 b7 b8 b9 b10 b11 b12 a : Nat) :
    Command.from_byte_array [21, b1, b2, b3, b4, b5, b6, b7, b8, b9, b10, b11, b12, 0] =
      .ok (.sendMotionState
        ⟨u32FromBeBytes b1 b2 b3 b4, u32FromBeBytes b5 b6 b7 b8,
          u32FromBeBytes b9 b10 b11 b12⟩ false) ∧
    Command.from_byte_array [21, b1, b2, b3, b4, b5, b6, b7, b8, b9, b10, b11, b12, 1] =
      .ok (.sendMotionState
        ⟨u32FromBeBytes b1 b2 b3 b4, u32FromBeBytes b5 b6 b7 b8,
          u32FromBeBytes b9 b10 b11 b12⟩ true) ∧
    (a ≠ 0 → a ≠ 1 →
      Command.from_byte_array [21, b1, b2, b3, b4, b5, b6, b7, b8, b9, b10, b11, b12, a] =
        .error ()) := by
  refine ⟨rfl, rfl, fun h0 h1 => ?_⟩
  have e : Command.from_byte_array
      [21, b1, b2, b3, b4, b5, b6, b7, b8, b9, b10, b11, b12, a] =
      decodeMotionPayload [b1, b2, b3, b4, b5, b6, b7, b8, b9, b10, b11, b12, a] := rfl
  rw [e]
  simp [decodeMotionPayload, readU32, h0, h1]

/-- Witness for C5 at the concrete armed byte 2 (the spec's example). -/
theorem armed_byte_validation_witness :
    Command.from_byte_array [21, 0, 0, 0, 0, 0, 0, 0, 0, 0, 0, 0, 0, 2] = .error () :=
  (armed_byte_validation 0 0 0 0 0 0 0 0 0 0 0 0 2).2.2 (by decide) (by decide)

/-- Counterexample to C6 as stated: encoding `SendMotionState` yields 14 raw
bytes including the tag (1 tag + 12 vector bytes + 1 armed byte), which
exceeds the claimed 13-byte bound. -/
theorem encode_exceeds_thirteen_bytes :
    (Command.to_vec (.sendMotionState ⟨0, 0, 0⟩ false)).length = 14 ∧
    ¬ (Command.to_vec (.sendMotionState ⟨0, 0, 0⟩ false)).length ≤ 13 := by
  decide

/-- Claim C6 (amended): the encoded raw output never exceeds 14 bytes
including the tag, so on the capacity-bounded variant with its fixed 32-byte
capacity the full-buffer error branch is unreachable: encoding a well-typed
`Command` cannot fail and agrees with the unbounded encoder. -/
theorem encode_length_bound (cmd : Command) :
    (Command.to_vec cmd).length ≤ 14 ∧
    Command.to_vec_bounded 32 cmd = .ok cmd.to_vec := by
  cases cmd with
  | sendMotionState v armed =>
    obtain ⟨x, y, z⟩ := v
    refine ⟨?_, ?_⟩
    · simp [Command.to_vec, Command.payloadBytes, u32ToBeBytes]
    · cases armed <;>
        simp [Command.to_vec, Command.to_vec_bounded, Command.payloadBytes,
          Command.intoU8, u32ToBeBytes, heaplessPushAll, heaplessPush, Except.bind]
  | toggleLed => exact ⟨by decide, rfl⟩
  | startMotor => exact ⟨by decide, rfl⟩
  | stopMotor => exact ⟨by decide, rfl⟩
  | getMotionState => exact ⟨by decide, rfl⟩

/-- Claim C7: a no-payload command tag (1, 10, 11, 20) decodes successfully
no matter how many trailing bytes follow: trailing bytes are silently
ignored, never rejected. -/
theorem no_payload_ignores_trailing (trailing : List Nat) :
    Command.from_byte_array (1 :: trailing) = .ok .toggleLed ∧
    Command.from_byte_array (10 :: trailing) = .ok .startMotor ∧
    Command.from_byte_array (11 :: trailing) = .ok .stopMotor ∧
    Command.from_byte_array (20 :: trailing) = .ok .getMotionState :=
  ⟨rfl, rfl, rfl, rfl⟩

set_option maxRecDepth 8192 in
/-- Claim C8: `MotorPosition.try_from` succeeds exactly on the nine bytes
{0x01, 0x02, 0x03, 0x04, 0xF1, 0xF2, 0xF3, 0xF4, 0xFF}; these round-trip
both ways with `MotorPosition.intoU8`, and every other byte fails with the
unit error. -/
theorem motor_tag_roundtrip :
    (∀ m : MotorPosition, MotorPosition.try_from m.intoU8 = .ok m) ∧
    (∀ b : Fin 256, ∀ m : MotorPosition,
      MotorPosition.try_from b.val = .ok m → m.intoU8 = b.val) ∧
    (∀ b : Fin 256,
      b.val ∉ ([0x01, 0x02, 0x03, 0x04, 0xF1, 0xF2, 0xF3, 0xF4, 0xFF] : List Nat) →
      MotorPosition.try_from b.val = .error ()) := by
  refine ⟨by decide, by decide, by decide⟩

/-- Witness for C8 at concrete bytes: tag 0xF1 decodes to `left` and the
invalid byte 0x05 fails. -/
theorem motor_tag_roundtrip_witness :
    MotorPosition.intoU8 .left = 0xF1 ∧ MotorPosition.try_from 0x05 = .error () :=
  ⟨motor_tag_roundtrip.2.1 ⟨0xF1, by decide⟩ .left (by decide),
    motor_tag_roundtrip.2.2 ⟨0x05, by decide⟩ (by decide)⟩

/-- Claim C9: `Command.from_slip` inverts `Command.to_slip` for every command,
assuming only that the external framing collaborator's decode is the inverse
of its encode (nothing is assumed about its escape bytes). -/
theorem slip_roundtrip (enc : List Nat → List Nat)
    (dec : List Nat → Except Unit (List Nat))
    (hinv : ∀ b, dec (enc b) = .ok b) (cmd : Command) (h : cmd.wf) :
    Command.from_slip dec (Command.to_slip enc cmd) = .ok cmd := by
  unfold Command.from_slip Command.to_slip
  rw [hinv]
  exact roundtrip_aux cmd h

/-- Witness for C9 with the identity framing transform and a concrete command. -/
theorem slip_roundtrip_witness :
    Command.from_slip Except.ok (Command.to_slip id .toggleLed) = .ok .toggleLed :=
  slip_roundtrip id Except.ok (fun _ => rfl) .toggleLed True.intro

/-- Claim C10: every fallible operation of the codec has the unit type `()`
as its error type, so all of the spec's distinct failure causes (invalid
command tag, invalid motor tag, invalid boolean, truncation, buffer full,
framing error) are indistinguishable to the caller: any two failing calls
return equal error values. -/
theorem errors_indistinguishable
    (d1 d2 : List Nat) (b1 b2 cap : Nat) (c1 c2 : Command)
    (dec enc : List Nat → Except Unit (List Nat))
    (e1 e2 e3 e4 e5 e6 : Unit)
    (h1 : Command.from_byte_array d1 = .error e1)
    (h2 : Command.try_from b1 = .error e2)
    (h3 : MotorPosition.try_from b2 = .error e3)
    (h4 : Command.from_slip dec d2 = .error e4)
    (h5 : Command.to_vec_bounded cap c1 = .error e5)
    (h6 : Command.to_slip_bounded enc c2 = .error e6) :
    e1 = e2 ∧ e2 = e3 ∧ e3 = e4 ∧ e4 = e5 ∧ e5 = e6 :=
  ⟨rfl, rfl, rfl, rfl, rfl⟩

/-- Witness for C10: six concrete failing calls, one per failure cause, all
returning the same error value `()`. -/
theorem errors_indistinguishable_witness :
    Command.from_byte_array [] = .error () ∧
    (() = () ∧ () = () ∧ () = () ∧ () = () ∧ () = ()) :=
  ⟨rfl,
    errors_indistinguishable [] [] 0 0 0 .toggleLed .toggleLed
      (fun _ => .error ()) (fun _ => .error ()) () () () () () ()
      rfl rfl rfl rfl rfl rfl⟩
